import Mathlib

/-
Verification of the TurboDriver dispatch core (Go package `dispatch`).

Shallow embedding conventions:
- Go `float64` values (coordinates, distances, radii) are modelled as `Rat`.
  The trigonometric haversine computation `haversineKM` cannot be embedded
  (floating-point transcendental functions); since every piece of dispatch
  logic is generic in the metric, the metric is passed explicitly as a
  parameter `hav : Coordinate → Coordinate → Rat` wherever the Go code calls
  `haversineKM`. Theorems about the matching algorithm quantify over `hav`.
- Go `time.Time` and `time.Duration` are modelled as `Int` nanoseconds
  (matching `UnixNano`); `t1.Before(t2)` is `t1 < t2`, `t1.After(t2)` is
  `t2 < t1`.
- Go maps are modelled as association lists; iteration order of a `range`
  loop is the list order, and theorems quantify over the list so they cover
  every iteration order. A missing key reads as the Go zero value where the
  source reads `m[k]` without the `ok` form.
- The `GeoLocator` dependency is modelled by its observable behaviour at the
  single call each operation makes: `geoNearby : Coordinate → Rat →
  Option (String × Rat)`, where `none` covers both a nil locator and an
  error return, and `some (id, dist)` is a successful `Nearby` answer.
- The optional persistence mirror and the external idempotency store are nil
  in this model (a supported configuration; their calls do not touch the
  in-memory maps, and in the current source their errors are discarded).
- `sync.RWMutex` is modelled only where it changes observable behaviour:
  `Store.GetRide` acquires the read lock, and when the calling context
  already holds the write lock (as `Store.CreateRide` does when it reaches
  `lookupRideByKeyLocked`) the acquisition blocks forever. Operations that
  can block forever return `Option`, with `none` meaning the call never
  completes.
-/

namespace TurboDriver

/-- Coordinate from `dispatch` types: latitude, longitude, accuracy, timestamp. -/
structure Coordinate where
  Latitude : Rat
  Longitude : Rat
  Accuracy : Rat
  At : Int
deriving DecidableEq

/-- Go `type RideStatus string`. -/
abbrev RideStatus := String

def RideRequested : RideStatus := "requested"

def RideAssigned : RideStatus := "assigned"

def RideAccepted : RideStatus := "accepted"

def RideEnRoute : RideStatus := "en_route"

def RideComplete : RideStatus := "complete"

def RideCancelled : RideStatus := "cancelled"

/-- DriverState from `dispatch` types. -/
structure DriverState where
  ID : String
  Available : Bool
  Location : Coordinate
  UpdatedAt : Int
  RideID : String
  Status : String
  RadiusKM : Rat
deriving DecidableEq

/-- The Go zero value of `DriverState`, produced by reading a missing map key. -/
def driverZero : DriverState :=
  { ID := "", Available := false, Location := ⟨0, 0, 0, 0⟩, UpdatedAt := 0,
    RideID := "", Status := "", RadiusKM := 0 }

/-- Ride from `dispatch` types. -/
structure Ride where
  ID : String
  PassengerID : String
  DriverID : String
  Status : RideStatus
  Pickup : Coordinate
  CreatedAt : Int
deriving DecidableEq

/-- Association-list lookup modelling a Go map read with the `ok` form. -/
def alookup (k : String) : List (String × α) → Option α
  | [] => none
  | (k1, v) :: t => if k1 = k then some v else alookup k t

/-- Association-list write modelling a Go map assignment `m[k] = v`. -/
def aupsert (k : String) (v : α) : List (String × α) → List (String × α)
  | [] => [(k, v)]
  | (k1, v1) :: t => if k1 = k then (k, v) :: t else (k1, v1) :: aupsert k v t

/-- Association-list removal modelling Go `delete(m, k)`. -/
def aremove (k : String) : List (String × α) → List (String × α)
  | [] => []
  | (k1, v) :: t => if k1 = k then aremove k t else (k1, v) :: aremove k t

/-- Entry of the in-memory idempotency cache (`idemEntry`). -/
structure IdemEntry where
  rideID : String
  expiry : Int
deriving DecidableEq

/-- The in-memory idempotency cache (`idemCache`): key map plus ttl. -/
structure IdemCache where
  byKey : List (String × IdemEntry)
  ttl : Int
deriving DecidableEq

/-- `newIdemCache`: empty map, ttl of 30 minutes (nanoseconds). -/
def idemCacheNew : IdemCache :=
  { byKey := [], ttl := 30 * 60 * 1000000000 }

/-- `idemCache.Remember`: stores key to ride mapping with expiry now plus ttl;
a zero-length key or a zero-length ride id is a no-op. -/
def IdemCache.Remember (now : Int) (key rideID : String) (c : IdemCache) : IdemCache :=
  if key = "" ∨ rideID = "" then c
  else { c with byKey := aupsert key { rideID := rideID, expiry := now + c.ttl } c.byKey }

/-- `idemCache.Lookup`: returns the ride id if the key exists and is not
expired; an entry found expired (`time.Now().After(entry.expiry)`, strict) is
deleted. Returns the possibly updated cache alongside the result. -/
def IdemCache.Lookup (now : Int) (key : String) (c : IdemCache) : Option String × IdemCache :=
  if key = "" then (none, c)
  else
    match alookup key c.byKey with
    | none => (none, c)
    | some e =>
      if e.expiry < now then (none, { c with byKey := aremove key c.byKey })
      else (some e.rideID, c)

/-- The dispatch `Store`: authoritative driver and ride maps, the idempotency
cache, and the prune observability counters (persistence and external
idempotency ports are nil in this model). -/
structure Store where
  drivers : List (String × DriverState)
  rides : List (String × Ride)
  idem : IdemCache
  pruneCount : Int
  lastPruned : Int
  staleCount : Int
deriving DecidableEq

/-- `NewStore` / `NewStoreWithDeps`: empty maps, fresh cache, zero counters. -/
def Store.new : Store :=
  { drivers := [], rides := [], idem := idemCacheNew,
    pruneCount := 0, lastPruned := 0, staleCount := 0 }

/-- `math.MaxFloat64`, the initial best distance of the fallback scan. This
decimal literal is exactly 2 ^ 1024 - 2 ^ 971, the value of the largest
finite float64 (see `maxFloat64_eq_pow` below). -/
def maxFloat64 : Rat := 179769313486231570814527423731704356798070567525844996598917476803157260780028538760589558632766878171540458953514382464234321326889464182768467546703537516986049910576551282076245490090389328944075868508455133942304583236903222948165808559332123348274797826204144723168738177180919299881250404026184124858368

/-- One iteration of the fallback linear scan in
`findNearestDriverLockedExcluding`: skip excluded ids, skip unavailable
drivers, keep the entry when its distance is within the radius and strictly
below the best so far. -/
def scanStep (hav : Coordinate → Coordinate → Rat) (target : Coordinate)
    (radiusKM : Rat) (exclude : List String)
    (best : String × Rat) (p : String × DriverState) : String × Rat :=
  if p.1 ∈ exclude then best
  else if p.2.Available = false then best
  else
    let dist := hav target p.2.Location
    if dist ≤ radiusKM ∧ dist < best.2 then (p.1, dist) else best

/-- The fallback linear scan of `findNearestDriverLockedExcluding`, starting
from the empty id and `math.MaxFloat64`. -/
def findScan (hav : Coordinate → Coordinate → Rat) (target : Coordinate)
    (radiusKM : Rat) (exclude : List String)
    (drivers : List (String × DriverState)) : String × Rat :=
  drivers.foldl (scanStep hav target radiusKM exclude) ("", maxFloat64)

/-- `findNearestDriverLockedExcluding`: first consult the GeoLocator answer
(`geoResult`; `none` covers a nil locator and an error). A returned candidate
is used when it is not excluded and is present and available in the driver
map; otherwise fall back to the linear scan. -/
def findNearestDriverLockedExcluding (hav : Coordinate → Coordinate → Rat)
    (geoResult : Option (String × Rat)) (drivers : List (String × DriverState))
    (target : Coordinate) (radiusKM : Rat) (exclude : List String) : String × Rat :=
  match geoResult with
  | some (id, dist) =>
    if id ∈ exclude then findScan hav target radiusKM exclude drivers
    else
      match alookup id drivers with
      | some driver =>
        if driver.Available then (id, dist)
        else findScan hav target radiusKM exclude drivers
      | none => findScan hav target radiusKM exclude drivers
  | none => findScan hav target radiusKM exclude drivers

/-- `findNearestDriverLocked`: the excluding variant with a nil exclusion set. -/
def findNearestDriverLocked (hav : Coordinate → Coordinate → Rat)
    (geoResult : Option (String × Rat)) (drivers : List (String × DriverState))
    (target : Coordinate) (radiusKM : Rat) : String × Rat :=
  findNearestDriverLockedExcluding hav geoResult drivers target radiusKM []

/-- The ride id `fmt.Sprintf("ride_%d", now.UnixNano())` built by `CreateRide`. -/
def rideIdFor (now : Int) : String := "ride_" ++ toString now

/-- Go `sync.RWMutex.RLock` as observed by a single goroutine: when that
goroutine already holds the write lock, the acquisition blocks forever
(`none`); otherwise it proceeds. -/
def rlockAcquire (writeHeld : Bool) : Option Unit :=
  if writeHeld then none else some ()

/-- `Store.GetRide` with the lock context made explicit: it takes the read
lock, reads the ride map, and (persistence being nil) reports a miss as
not found. `writeHeld` records whether the calling goroutine already holds
the store write lock; `none` means the call never completes. -/
def Store.GetRideWith (writeHeld : Bool) (s : Store) (id : String) :
    Option (Option Ride × Store) :=
  match rlockAcquire writeHeld with
  | none => none
  | some _ => some (alookup id s.rides, s)

/-- `Store.lookupRideByKeyLocked`, called while the store write lock is held:
consult the in-memory cache (threading its lazy eviction), and on a hit
return `s.GetRide(id)` — which acquires the read lock under the held write
lock. The external idempotency store is nil, so a cache miss is a miss. -/
def Store.lookupRideByKeyLocked (now : Int) (key : String) (s : Store) :
    Option (Option Ride × Store) :=
  if key = "" then some (none, s)
  else
    match s.idem.Lookup now key with
    | (some id, c1) => Store.GetRideWith true { s with idem := c1 } id
    | (none, c1) => some (none, { s with idem := c1 })

/-- `Store.UpdateDriverLocation`: refresh the driver as available and idle at
the new location, unless a ride id is attached, in which case availability
stays false and the status becomes on_ride. Returns the stored state. -/
def Store.UpdateDriverLocation (now : Int) (id : String) (loc : Coordinate)
    (s : Store) : DriverState × Store :=
  let base : DriverState :=
    { ID := id, Available := true, Location := loc, UpdatedAt := now,
      RideID := "", Status := "idle", RadiusKM := 3 }
  let state :=
    match alookup id s.drivers with
    | some existing =>
      if existing.RideID ≠ "" then
        { base with RideID := existing.RideID, Status := "on_ride", Available := false }
      else { base with RideID := existing.RideID }
    | none => base
  (state, { s with drivers := aupsert id state s.drivers })

/-- `Store.CreateRide`: replay a non-empty already-mapped idempotency key,
otherwise match within radius 3, create the ride as assigned, mark the
chosen driver unavailable and remember the key. The result is `none` when
the call never completes (the replay path blocks inside `GetRide`). -/
def Store.CreateRide (hav : Coordinate → Coordinate → Rat)
    (geoNearby : Coordinate → Rat → Option (String × Rat)) (now : Int)
    (passengerID : String) (pickup : Coordinate) (idemKey : String)
    (s : Store) : Option (Except String Ride × Store) :=
  match (if idemKey ≠ "" then s.lookupRideByKeyLocked now idemKey else some (none, s)) with
  | none => none
  | some (some ride, s1) => some (Except.ok ride, s1)
  | some (none, s1) =>
    let found := findNearestDriverLocked hav (geoNearby pickup 3) s1.drivers pickup 3
    if found.1 = "" then some (Except.error "no nearby drivers available", s1)
    else
      let ride : Ride :=
        { ID := rideIdFor now, PassengerID := passengerID, DriverID := found.1,
          Status := RideAssigned, Pickup := pickup, CreatedAt := now }
      let driver0 := (alookup found.1 s1.drivers).getD driverZero
      let driver := { driver0 with RideID := ride.ID, Status := "assigned", Available := false }
      some (Except.ok ride,
        { s1 with drivers := aupsert found.1 driver s1.drivers,
                  rides := aupsert ride.ID ride s1.rides,
                  idem := s1.idem.Remember now idemKey ride.ID })

/-- `Store.AcceptRide`: fails when the ride is missing, the driver does not
match, or the ride is not assigned; on success the ride becomes accepted and
the driver entry becomes accepted and unavailable with the ride attached.
Returns the previous status alongside the ride. -/
def Store.AcceptRide (rideID driverID : String) (s : Store) :
    Except String (Ride × RideStatus) × Store :=
  match alookup rideID s.rides with
  | none => (Except.error "ride not found", s)
  | some ride =>
    if ride.DriverID ≠ driverID then (Except.error "driver mismatch", s)
    else if ride.Status ≠ RideAssigned then (Except.error "ride not in assignable state", s)
    else
      let prev := ride.Status
      let ride1 := { ride with Status := RideAccepted }
      let driver0 := (alookup driverID s.drivers).getD driverZero
      let driver := { driver0 with Status := "accepted", Available := false, RideID := ride1.ID }
      (Except.ok (ride1, prev),
        { s with rides := aupsert rideID ride1 s.rides,
                 drivers := aupsert driverID driver s.drivers })

/-- `Store.CancelRide`: fails when the ride is missing or already finished;
otherwise the ride becomes cancelled and an attached driver is released to
idle and available (written back under the field `driver.ID`). -/
def Store.CancelRide (rideID : String) (s : Store) :
    Except String (Ride × RideStatus) × Store :=
  match alookup rideID s.rides with
  | none => (Except.error "ride not found", s)
  | some ride =>
    if ride.Status = RideCancelled ∨ ride.Status = RideComplete then
      (Except.error "ride already finished", s)
    else
      let prev := ride.Status
      let ride1 := { ride with Status := RideCancelled }
      let s1 := { s with rides := aupsert rideID ride1 s.rides }
      if ride1.DriverID ≠ "" then
        let driver0 := (alookup ride1.DriverID s1.drivers).getD driverZero
        let driver := { driver0 with Status := "idle", Available := true, RideID := "" }
        (Except.ok (ride1, prev), { s1 with drivers := aupsert driver.ID driver s1.drivers })
      else (Except.ok (ride1, prev), s1)

/-- `Store.CompleteRide`: fails unless the ride is accepted or en_route;
otherwise the ride becomes complete and an attached driver is released. -/
def Store.CompleteRide (rideID : String) (s : Store) :
    Except String (Ride × RideStatus) × Store :=
  match alookup rideID s.rides with
  | none => (Except.error "ride not found", s)
  | some ride =>
    if ride.Status ≠ RideAccepted ∧ ride.Status ≠ RideEnRoute then
      (Except.error "ride not in progress", s)
    else
      let prev := ride.Status
      let ride1 := { ride with Status := RideComplete }
      let s1 := { s with rides := aupsert rideID ride1 s.rides }
      if ride1.DriverID ≠ "" then
        let driver0 := (alookup ride1.DriverID s1.drivers).getD driverZero
        let driver := { driver0 with Status := "idle", Available := true, RideID := "" }
        (Except.ok (ride1, prev), { s1 with drivers := aupsert driver.ID driver s1.drivers })
      else (Except.ok (ride1, prev), s1)

/-- `Store.UpdateRideStatus`: the admin override; sets any status on an
existing ride with no state-machine guard. -/
def Store.UpdateRideStatus (rideID : String) (status : RideStatus) (s : Store) :
    Except String Ride × Store :=
  match alookup rideID s.rides with
  | none => (Except.error "ride not found", s)
  | some ride =>
    let ride1 := { ride with Status := status }
    (Except.ok ride1, { s with rides := aupsert rideID ride1 s.rides })

/-- `Store.ReassignIfUnaccepted`: a no-op with changed false unless the ride
is still assigned to exactly the expected driver; on trigger the expected
driver (when present) is released, matching re-runs excluding it, and the
ride either moves to the replacement (still assigned) or reverts to
requested with no driver. -/
def Store.ReassignIfUnaccepted (hav : Coordinate → Coordinate → Rat)
    (geoNearby : Coordinate → Rat → Option (String × Rat))
    (rideID expectedDriverID : String) (s : Store) :
    Except String (Ride × Bool) × Store :=
  match alookup rideID s.rides with
  | none => (Except.error "ride not found", s)
  | some ride =>
    if ride.Status ≠ RideAssigned ∨ ride.DriverID ≠ expectedDriverID then
      (Except.ok (ride, false), s)
    else
      let s1 :=
        match alookup expectedDriverID s.drivers with
        | some d =>
          let freed := { d with Status := "idle", Available := true, RideID := "" }
          { s with drivers := aupsert freed.ID freed s.drivers }
        | none => s
      let found := findNearestDriverLockedExcluding hav (geoNearby ride.Pickup 3)
        s1.drivers ride.Pickup 3 [expectedDriverID]
      if found.1 = "" then
        let ride1 := { ride with Status := RideRequested, DriverID := "" }
        (Except.ok (ride1, true), { s1 with rides := aupsert rideID ride1 s1.rides })
      else
        let ride1 := { ride with DriverID := found.1, Status := RideAssigned }
        let d0 := (alookup found.1 s1.drivers).getD driverZero
        let d1 := { d0 with RideID := ride1.ID, Status := "assigned", Available := false }
        (Except.ok (ride1, true),
          { s1 with rides := aupsert rideID ride1 s1.rides,
                    drivers := aupsert found.1 d1 s1.drivers })

/-- Bool test of the prune condition: heartbeat older than the cutoff and no
ride attached. -/
def prunableB (cutoff : Int) (p : String × DriverState) : Bool :=
  decide (p.2.UpdatedAt < cutoff ∧ p.2.RideID = "")

/-- Bool test of staleness alone: heartbeat older than the cutoff. -/
def staleB (cutoff : Int) (p : String × DriverState) : Bool :=
  decide (p.2.UpdatedAt < cutoff)

/-- `Store.PruneStaleDrivers`: the Go loop visits every entry, deletes the
prunable ones (stale and with no attached ride), and counts removed and
stale entries; expressed here as a filter plus the two counts, which is the
order-independent meaning of that loop. `pruneCount` accumulates, guarded by
removed being positive; `lastPruned` and `staleCount` are overwritten. -/
def Store.PruneStaleDrivers (now ttl : Int) (s : Store) : Store :=
  let cutoff := now - ttl
  let removed : Int := (s.drivers.countP (prunableB cutoff) : Int)
  let stale : Int := (s.drivers.countP (staleB cutoff) : Int)
  { s with drivers := s.drivers.filter (fun p => ! prunableB cutoff p),
           pruneCount := if removed > 0 then s.pruneCount + removed else s.pruneCount,
           lastPruned := removed,
           staleCount := stale }

/-- One Store operation together with its arguments; the metric and the
GeoLocator behaviour at the moment of the call are part of the operation. -/
inductive StoreOp where
  | updateDriverLocation (now : Int) (id : String) (loc : Coordinate)
  | createRide (hav : Coordinate → Coordinate → Rat)
      (geoNearby : Coordinate → Rat → Option (String × Rat)) (now : Int)
      (passengerID : String) (pickup : Coordinate) (idemKey : String)
  | acceptRide (rideID driverID : String)
  | cancelRide (rideID : String)
  | completeRide (rideID : String)
  | updateRideStatus (rideID : String) (status : RideStatus)
  | reassignIfUnaccepted (hav : Coordinate → Coordinate → Rat)
      (geoNearby : Coordinate → Rat → Option (String × Rat))
      (rideID expectedDriverID : String)
  | pruneStaleDrivers (now ttl : Int)

/-- The store state after a completed operation; `none` when the operation
never completes (the CreateRide replay path). -/
def StoreOp.apply : StoreOp → Store → Option Store
  | .updateDriverLocation now id loc, s => some (Store.UpdateDriverLocation now id loc s).2
  | .createRide hav geo now pid pickup key, s =>
      (Store.CreateRide hav geo now pid pickup key s).map Prod.snd
  | .acceptRide rideID driverID, s => some (Store.AcceptRide rideID driverID s).2
  | .cancelRide rideID, s => some (Store.CancelRide rideID s).2
  | .completeRide rideID, s => some (Store.CompleteRide rideID s).2
  | .updateRideStatus rideID status, s => some (Store.UpdateRideStatus rideID status s).2
  | .reassignIfUnaccepted hav geo rideID expected, s =>
      some (Store.ReassignIfUnaccepted hav geo rideID expected s).2
  | .pruneStaleDrivers now ttl, s => some (Store.PruneStaleDrivers now ttl s)

/-- Marks the admin override `UpdateRideStatus`, which bypasses the ride
state machine. -/
def StoreOp.isAdmin : StoreOp → Bool
  | .updateRideStatus _ _ => true
  | _ => false

/-- For a CreateRide operation, the generated ride id does not collide with
an existing ride of the store; trivially true for every other operation. -/
def StoreOp.freshFor (op : StoreOp) (s : Store) : Prop :=
  match op with
  | .createRide _ _ now _ _ _ => alookup (rideIdFor now) s.rides = none
  | _ => True

/-- One completed non-admin store operation. -/
def Step (s s1 : Store) : Prop :=
  ∃ op : StoreOp, op.isAdmin = false ∧ op.apply s = some s1

/-- States reachable from the fresh store by completed non-admin operations. -/
def Reachable (s : Store) : Prop :=
  Relation.ReflTransGen Step Store.new s

/-- Pointwise driver availability invariant: an unavailable driver has a
ride id attached, an available driver has none. -/
def DriverOK (p : String × DriverState) : Prop :=
  (p.2.Available = false → p.2.RideID ≠ "") ∧
  (p.2.Available = true → p.2.RideID = "")

/-- The driver availability invariant over the whole driver map. -/
def DriverInv (drivers : List (String × DriverState)) : Prop :=
  ∀ p ∈ drivers, DriverOK p

/-- The six canonical ride statuses. -/
def ValidStatus (st : RideStatus) : Prop :=
  st = RideRequested ∨ st = RideAssigned ∨ st = RideAccepted ∨
  st = RideEnRoute ∨ st = RideComplete ∨ st = RideCancelled

/-- Pointwise well-formedness of a ride entry: keyed by its own non-empty
ride id, with a canonical status. -/
def RideOK (p : String × Ride) : Prop :=
  p.2.ID = p.1 ∧ p.1 ≠ "" ∧ ValidStatus p.2.Status

/-- Well-formedness of the ride map. -/
def RidesWF (rides : List (String × Ride)) : Prop :=
  ∀ p ∈ rides, RideOK p

/-- The inductive store invariant combining both maps. -/
def StoreWF (s : Store) : Prop :=
  DriverInv s.drivers ∧ RidesWF s.rides

/-- The edges of the ride state machine: the forward chain, cancellation
from every non-terminal state, the assigned self-loop and the regression
from assigned to requested on reassignment; completion is allowed from
accepted as well as from en_route (the spec treats en_route as a resting
state equivalent to accepted for completion purposes). -/
def RideEdge (a b : RideStatus) : Prop :=
  (a = RideRequested ∧ (b = RideAssigned ∨ b = RideCancelled)) ∨
  (a = RideAssigned ∧ (b = RideAccepted ∨ b = RideAssigned ∨ b = RideRequested ∨ b = RideCancelled)) ∨
  (a = RideAccepted ∧ (b = RideEnRoute ∨ b = RideComplete ∨ b = RideCancelled)) ∨
  (a = RideEnRoute ∧ (b = RideComplete ∨ b = RideCancelled))

instance (a b : RideStatus) : Decidable (RideEdge a b) := by
  unfold RideEdge
  infer_instance

/-- A selected driver id is sound for a query: not excluded, and backed by an
available entry of the driver map. -/
def SelSound (drivers : List (String × DriverState)) (exclude : List String)
    (id : String) : Prop :=
  id ∉ exclude ∧ ∃ ds, (id, ds) ∈ drivers ∧ ds.Available = true

/-- A selected driver id is sound and within the radius for the metric. -/
def SelInRadius (hav : Coordinate → Coordinate → Rat) (target : Coordinate)
    (radiusKM : Rat) (drivers : List (String × DriverState)) (exclude : List String)
    (id : String) : Prop :=
  id ∉ exclude ∧ ∃ ds, (id, ds) ∈ drivers ∧ ds.Available = true ∧
    hav target ds.Location ≤ radiusKM

/-- A concrete metric standing in for the haversine distance in concrete
scenarios: coinciding points are at distance zero, distinct points 111 km
apart (one degree of latitude). Written without rational arithmetic so that
it reduces in the kernel. -/
def farDistKM (a b : Coordinate) : Rat := if a = b then 0 else 111

/-- The degenerate zero metric: every driver is at distance zero; used to
build concrete scenarios where matching always finds the driver in radius. -/
def zeroDistKM (_ _ : Coordinate) : Rat := 0

/-- The behaviour of a nil GeoLocator: every call falls back to the scan. -/
def geoNone (_ : Coordinate) (_ : Rat) : Option (String × Rat) := none

/-- The origin coordinate used in concrete scenarios. -/
def locO : Coordinate := ⟨0, 0, 0, 0⟩

/-- A coordinate one degree north of the origin, 111 km away under
`farDistKM`; used in concrete scenarios. -/
def locN : Coordinate := ⟨1, 0, 0, 0⟩

/-- An available idle driver at the origin, as stored by a heartbeat. -/
def drvAt (id : String) (loc : Coordinate) : DriverState :=
  { ID := id, Available := true, Location := loc, UpdatedAt := 1,
    RideID := "", Status := "idle", RadiusKM := 3 }

/-- A stale driver (heartbeat at time 0) attached to ride r1; used in
concrete pruning scenarios. -/
def drvStaleAttached : DriverState :=
  { ID := "d1", Available := false, Location := locO, UpdatedAt := 0,
    RideID := "r1", Status := "assigned", RadiusKM := 3 }

/-- A store holding one stale attached driver and one stale free driver. -/
def sPrune : Store :=
  { Store.new with drivers := [("d1", drvStaleAttached), ("d2", drvAt "d2" locO)] }

/-- A concrete ride r1 assigned to driver d1, used in concrete scenarios. -/
def rideA1 : Ride :=
  { ID := "r1", PassengerID := "p1", DriverID := "d1", Status := RideAssigned,
    Pickup := locO, CreatedAt := 0 }

/-- Driver d1 while assigned to ride r1. -/
def drvAssigned1 : DriverState :=
  { ID := "d1", Available := false, Location := locO, UpdatedAt := 1,
    RideID := "r1", Status := "assigned", RadiusKM := 3 }

/-- A store holding ride r1 assigned to driver d1. -/
def sAcc : Store :=
  { Store.new with drivers := [("d1", drvAssigned1)], rides := [("r1", rideA1)] }

/-- Ride r1 after acceptance. -/
def rideAccepted1 : Ride := { rideA1 with Status := RideAccepted }

/-- A store where ride r1 has already been accepted by driver d1. -/
def sAccDone : Store :=
  { Store.new with
    drivers := [("d1", { drvAssigned1 with Status := "accepted" })],
    rides := [("r1", rideAccepted1)] }

/-- An unrelated requested ride r2 with no driver. -/
def rideR2 : Ride :=
  { ID := "r2", PassengerID := "p2", DriverID := "", Status := RideRequested,
    Pickup := locO, CreatedAt := 0 }

/-- A store with two drivers and two rides, r1 assigned to d1. -/
def sTwo : Store :=
  { Store.new with
    drivers := [("d1", drvAssigned1), ("d2", drvAt "d2" locO)],
    rides := [("r1", rideA1), ("r2", rideR2)] }

/-- The store after one heartbeat of d1 at the origin on the fresh store. -/
def sHeart : Store := (Store.UpdateDriverLocation 1 "d1" locO Store.new).2

/-- The store after the heartbeat and one keyless CreateRide at time 2. -/
def sRide : Store :=
  ((Store.CreateRide farDistKM geoNone 2 "p1" locO "" sHeart).getD
    (Except.error "", Store.new)).2

/-- The ride created by the CreateRide call building `sRide`. -/
def rideNew2 : Ride :=
  { ID := "ride_2", PassengerID := "p1", DriverID := "d1",
    Status := RideAssigned, Pickup := locO, CreatedAt := 2 }

/- ### Theorems -/

/-- The literal used for `maxFloat64` is exactly 2 ^ 1024 - 2 ^ 971. -/
theorem maxFloat64_eq_pow : maxFloat64 = ((2 ^ 1024 - 2 ^ 971 : Nat) : Rat) := by
  set_option maxRecDepth 100000 in decide

theorem alookup_mem {α : Type} :
    ∀ {l : List (String × α)} {k : String} {v : α},
      alookup k l = some v → (k, v) ∈ l := by
  intro l
  induction l with
  | nil => intro k v h; simp [alookup] at h
  | cons p t ih =>
    intro k v h
    obtain ⟨k1, v1⟩ := p
    simp only [alookup] at h
    by_cases hk : k1 = k
    · subst hk
      rw [if_pos rfl] at h
      cases h
      exact List.mem_cons_self _ _
    · rw [if_neg hk] at h
      exact List.mem_cons_of_mem _ (ih h)

theorem alookup_aupsert_self {α : Type} (k : String) (v : α) :
    ∀ l : List (String × α), alookup k (aupsert k v l) = some v := by
  intro l
  induction l with
  | nil => simp [aupsert, alookup]
  | cons p t ih =>
    obtain ⟨k1, v1⟩ := p
    simp only [aupsert]
    by_cases hk : k1 = k
    · rw [if_pos hk]; simp [alookup]
    · rw [if_neg hk]; simp only [alookup]; rw [if_neg hk]; exact ih

theorem alookup_aupsert_ne {α : Type} {k2 k : String} (v : α)
    (hne : k2 ≠ k) :
    ∀ l : List (String × α), alookup k2 (aupsert k v l) = alookup k2 l := by
  intro l
  induction l with
  | nil =>
    simp only [aupsert, alookup]
    rw [if_neg (fun h => hne h.symm)]
  | cons p t ih =>
    obtain ⟨k1, v1⟩ := p
    simp only [aupsert]
    by_cases hk : k1 = k
    · subst hk
      rw [if_pos rfl]
      simp only [alookup]
      rw [if_neg (fun h => hne h.symm), if_neg (fun h => hne h.symm)]
    · rw [if_neg hk]
      simp only [alookup]
      by_cases hk2 : k1 = k2
      · rw [if_pos hk2, if_pos hk2]
      · rw [if_neg hk2, if_neg hk2]; exact ih

theorem mem_aupsert {α : Type} {p : String × α} {k : String} {v : α} :
    ∀ {l : List (String × α)}, p ∈ aupsert k v l → p = (k, v) ∨ p ∈ l := by
  intro l
  induction l with
  | nil => intro h; simp [aupsert] at h; exact Or.inl h
  | cons q t ih =>
    intro h
    obtain ⟨k1, v1⟩ := q
    simp only [aupsert] at h
    by_cases hk : k1 = k
    · rw [if_pos hk] at h
      rcases List.mem_cons.mp h with h1 | h1
      · exact Or.inl h1
      · exact Or.inr (List.mem_cons_of_mem _ h1)
    · rw [if_neg hk] at h
      rcases List.mem_cons.mp h with h1 | h1
      · exact Or.inr (h1 ▸ List.mem_cons_self _ _)
      · rcases ih h1 with h2 | h2
        · exact Or.inl h2
        · exact Or.inr (List.mem_cons_of_mem _ h2)

theorem scan_foldl_inRadius (hav : Coordinate → Coordinate → Rat)
    (target : Coordinate) (radiusKM : Rat) (exclude : List String)
    (L : List (String × DriverState)) :
    ∀ (l : List (String × DriverState)) (acc : String × Rat),
      (∀ p ∈ l, p ∈ L) →
      (acc.1 = "" ∨ SelInRadius hav target radiusKM L exclude acc.1) →
      ((l.foldl (scanStep hav target radiusKM exclude) acc).1 = "" ∨
        SelInRadius hav target radiusKM L exclude
          (l.foldl (scanStep hav target radiusKM exclude) acc).1) := by
  intro l
  induction l with
  | nil => intro acc _ hacc; simpa using hacc
  | cons p t ih =>
    intro acc hmem hacc
    simp only [List.foldl_cons]
    apply ih
    · intro q hq; exact hmem q (List.mem_cons_of_mem _ hq)
    · unfold scanStep
      by_cases h1 : p.1 ∈ exclude
      · rw [if_pos h1]; exact hacc
      · rw [if_neg h1]
        by_cases h2 : p.2.Available = false
        · rw [if_pos h2]; exact hacc
        · rw [if_neg h2]
          by_cases h3 : hav target p.2.Location ≤ radiusKM ∧
              hav target p.2.Location < acc.2
          · rw [if_pos h3]
            right
            have hav2 : p.2.Available = true := by
              cases hb : p.2.Available
              · exact absurd hb h2
              · rfl
            exact ⟨h1, p.2, hmem p (List.mem_cons_self _ _), hav2, h3.1⟩
          · rw [if_neg h3]; exact hacc

theorem findScan_inRadius (hav : Coordinate → Coordinate → Rat)
    (target : Coordinate) (radiusKM : Rat) (exclude : List String)
    (drivers : List (String × DriverState))
    (h : (findScan hav target radiusKM exclude drivers).1 ≠ "") :
    SelInRadius hav target radiusKM drivers exclude
      (findScan hav target radiusKM exclude drivers).1 := by
  rcases scan_foldl_inRadius hav target radiusKM exclude drivers drivers
    ("", maxFloat64) (fun p hp => hp) (Or.inl rfl) with h1 | h1
  · exact absurd h1 h
  · exact h1

/-- The selected driver of `findNearestDriverLockedExcluding` is never in
the exclusion set and is always backed by an available entry of the driver
map, for every GeoLocator behaviour. -/
theorem findNearest_sel (hav : Coordinate → Coordinate → Rat)
    (geoResult : Option (String × Rat)) (drivers : List (String × DriverState))
    (target : Coordinate) (radiusKM : Rat) (exclude : List String)
    (h : (findNearestDriverLockedExcluding hav geoResult drivers target radiusKM exclude).1 ≠ "") :
    SelSound drivers exclude
      (findNearestDriverLockedExcluding hav geoResult drivers target radiusKM exclude).1 := by
  have weaken : ∀ id, SelInRadius hav target radiusKM drivers exclude id →
      SelSound drivers exclude id := by
    rintro id ⟨hx, ds, hm, ha, _⟩
    exact ⟨hx, ds, hm, ha⟩
  unfold findNearestDriverLockedExcluding at h ⊢
  cases geoResult with
  | none => exact weaken _ (findScan_inRadius _ _ _ _ _ h)
  | some pr =>
    obtain ⟨id, dist⟩ := pr
    simp only at h ⊢
    by_cases hx : id ∈ exclude
    · rw [if_pos hx] at h ⊢
      exact weaken _ (findScan_inRadius _ _ _ _ _ h)
    · rw [if_neg hx] at h ⊢
      cases halk : alookup id drivers with
      | none =>
        rw [halk] at h
        exact weaken _ (findScan_inRadius _ _ _ _ _ h)
      | some driver =>
        rw [halk] at h
        replace h : (if driver.Available = true then (id, dist)
            else findScan hav target radiusKM exclude drivers).1 ≠ "" := h
        show SelSound drivers exclude (if driver.Available = true then (id, dist)
            else findScan hav target radiusKM exclude drivers).1
        by_cases hav1 : driver.Available = true
        · rw [if_pos hav1] at h ⊢
          exact ⟨hx, driver, alookup_mem halk, hav1⟩
        · rw [if_neg hav1] at h ⊢
          exact weaken _ (findScan_inRadius _ _ _ _ _ h)

/-- C1 (amended): for every store driver map, pickup, radius and exclusion
set, the driver selected by `findNearestDriverLockedExcluding` is never in
the exclusion set and is always an available entry of the driver map, on
both the GeoLocator index path and the fallback scan path; and provided
every candidate the GeoLocator returns is within the radius of the pickup
(measured by the metric on the locations recorded in the driver map), the
selected driver is within the radius. Without that proviso the radius bound
fails on the index path (see the counterexample). -/
theorem matching_within_radius_and_exclusion (hav : Coordinate → Coordinate → Rat)
    (geoResult : Option (String × Rat)) (drivers : List (String × DriverState))
    (target : Coordinate) (radiusKM : Rat) (exclude : List String)
    (hgeo : ∀ id dist, geoResult = some (id, dist) →
      ∀ ds, (id, ds) ∈ drivers → hav target ds.Location ≤ radiusKM)
    (h : (findNearestDriverLockedExcluding hav geoResult drivers target radiusKM exclude).1 ≠ "") :
    SelInRadius hav target radiusKM drivers exclude
      (findNearestDriverLockedExcluding hav geoResult drivers target radiusKM exclude).1 := by
  unfold findNearestDriverLockedExcluding at h ⊢
  cases geoResult with
  | none => exact findScan_inRadius _ _ _ _ _ h
  | some pr =>
    obtain ⟨id, dist⟩ := pr
    simp only at h ⊢
    by_cases hx : id ∈ exclude
    · rw [if_pos hx] at h ⊢
      exact findScan_inRadius _ _ _ _ _ h
    · rw [if_neg hx] at h ⊢
      cases halk : alookup id drivers with
      | none =>
        rw [halk] at h
        exact findScan_inRadius _ _ _ _ _ h
      | some driver =>
        rw [halk] at h
        replace h : (if driver.Available = true then (id, dist)
            else findScan hav target radiusKM exclude drivers).1 ≠ "" := h
        show SelInRadius hav target radiusKM drivers exclude
          (if driver.Available = true then (id, dist)
            else findScan hav target radiusKM exclude drivers).1
        by_cases hav1 : driver.Available = true
        · rw [if_pos hav1] at h ⊢
          exact ⟨hx, driver, alookup_mem halk, hav1,
            hgeo id dist rfl driver (alookup_mem halk)⟩
        · rw [if_neg hav1] at h ⊢
          exact findScan_inRadius _ _ _ _ _ h

/-- C1 witness: a concrete query on the fallback path (nil GeoLocator), one
available driver at the pickup, excluding an unrelated id: the selected
driver is sound and within the radius. -/
theorem matching_within_radius_and_exclusion_witness :
    SelInRadius farDistKM locO 3 [("d1", drvAt "d1" locO)] ["d2"]
      (findNearestDriverLockedExcluding farDistKM none
        [("d1", drvAt "d1" locO)] locO 3 ["d2"]).1 :=
  matching_within_radius_and_exclusion farDistKM none
    [("d1", drvAt "d1" locO)] locO 3 ["d2"]
    (fun _ _ hc => Option.noConfusion hc) (by decide)

/-- C1 counterexample: the claim as stated fails for a GeoLocator behaviour
that answers with an available driver recorded 111 km from the pickup — the
index path of `findNearestDriverLockedExcluding` trusts the reported
distance and selects the driver even though its distance from the pickup
exceeds the 3 km radius. -/
theorem matching_beyond_radius_on_index_path :
    (findNearestDriverLockedExcluding farDistKM (some ("d1", 1))
      [("d1", drvAt "d1" locN)] locO 3 []).1 = "d1"
    ∧ alookup "d1" [("d1", drvAt "d1" locN)] = some (drvAt "d1" locN)
    ∧ ¬ farDistKM locO (drvAt "d1" locN).Location ≤ 3 := by decide

theorem alookup_aremove_self {α : Type} (k : String) :
    ∀ l : List (String × α), alookup k (aremove k l) = none := by
  intro l
  induction l with
  | nil => simp [aremove, alookup]
  | cons p t ih =>
    obtain ⟨k1, v1⟩ := p
    simp only [aremove]
    by_cases hk : k1 = k
    · rw [if_pos hk]; exact ih
    · rw [if_neg hk]; simp only [alookup]; rw [if_neg hk]; exact ih

theorem idemLookup_res (now : Int) (key : String) (c : IdemCache) (hk : key ≠ "") :
    IdemCache.Lookup now key c =
      (match alookup key c.byKey with
       | none => (none, c)
       | some e =>
         if e.expiry < now then (none, { c with byKey := aremove key c.byKey })
         else (some e.rideID, c)) := by
  unfold IdemCache.Lookup
  rw [if_neg hk]

/-- C9 (amended): Remember with a zero-length key changes nothing, and so
does Remember with a zero-length ride id; Remember with a non-empty key and
a non-empty ride id stores the mapping with expiry now plus ttl, the ttl
defaulting to 30 minutes; Lookup returns the stored ride id exactly when
the key is present and not expired, and an entry found expired is evicted
from the cache by that Lookup. -/
theorem idemCache_contract (now : Int) (key rid : String) (c : IdemCache) :
    (IdemCache.Remember now "" rid c = c)
    ∧ (IdemCache.Remember now key "" c = c)
    ∧ (key ≠ "" → rid ≠ "" →
        alookup key (IdemCache.Remember now key rid c).byKey =
          some { rideID := rid, expiry := now + c.ttl })
    ∧ idemCacheNew.ttl = 30 * 60 * 1000000000
    ∧ (key ≠ "" → ∀ rid2, ((IdemCache.Lookup now key c).1 = some rid2 ↔
        ∃ e, alookup key c.byKey = some e ∧ ¬ e.expiry < now ∧ e.rideID = rid2))
    ∧ (key ≠ "" → ∀ e, alookup key c.byKey = some e → e.expiry < now →
        (IdemCache.Lookup now key c).1 = none ∧
        (IdemCache.Lookup now key c).2.byKey = aremove key c.byKey ∧
        alookup key (IdemCache.Lookup now key c).2.byKey = none) := by
  refine ⟨by simp [IdemCache.Remember], by simp [IdemCache.Remember], ?_, rfl, ?_, ?_⟩
  · intro hk hr
    unfold IdemCache.Remember
    rw [if_neg (by simp [hk, hr])]
    exact alookup_aupsert_self _ _ _
  · intro hk rid2
    rw [idemLookup_res now key c hk]
    cases he : alookup key c.byKey with
    | none => simp
    | some e =>
      dsimp only
      by_cases hexp : e.expiry < now
      · simp [hexp]
      · simp only [if_neg hexp]
        constructor
        · intro h
          refine ⟨e, rfl, hexp, ?_⟩
          exact (Option.some.injEq _ _ ▸ h : e.rideID = rid2)
        · rintro ⟨e2, he2, -, hrid⟩
          cases he2
          rw [hrid]
  · intro hk e he hexp
    rw [idemLookup_res now key c hk, he]
    dsimp only
    rw [if_pos hexp]
    exact ⟨rfl, rfl, alookup_aremove_self _ _⟩

/-- C9 witness: a concrete Remember on the fresh cache stores the mapping
with expiry now plus the default ttl. -/
theorem idemCache_contract_witness :
    alookup "k" (IdemCache.Remember 0 "k" "r1" idemCacheNew).byKey =
      some { rideID := "r1", expiry := 0 + idemCacheNew.ttl } :=
  (idemCache_contract 0 "k" "r1" idemCacheNew).2.2.1 (by decide) (by decide)

/-- C9 counterexample: Remember with the non-empty key k but an empty ride
id is a no-op — the claim says a non-empty key stores the mapping, but the
source also requires a non-empty ride id. -/
theorem idemCache_remember_empty_ride_noop :
    IdemCache.Remember 0 "k" "" idemCacheNew = idemCacheNew
    ∧ alookup "k" (IdemCache.Remember 0 "k" "" idemCacheNew).byKey = none := by
  decide

theorem length_filter_not_add_countP {α : Type} (p : α → Bool) :
    ∀ l : List α, ((l.filter (fun a => ! p a)).length : Int) + (l.countP p : Int) =
      (l.length : Int) := by
  intro l
  induction l with
  | nil => simp
  | cons a t ih =>
    cases h : p a with
    | true => simp [List.filter_cons, List.countP_cons, h]; omega
    | false => simp [List.filter_cons, List.countP_cons, h]; omega

/-- C8: PruneStaleDrivers removes exactly the drivers whose heartbeat is
older than now minus ttl and whose ride id is empty; a driver with a
non-empty attached ride id is never removed regardless of heartbeat age;
the removed count (also the drop in map size) and the currently-stale count
are recorded in lastPruned, pruneCount and staleCount. -/
theorem pruneStaleDrivers_exact (now ttl : Int) (s : Store) :
    (∀ p, p ∈ (Store.PruneStaleDrivers now ttl s).drivers ↔
      p ∈ s.drivers ∧ ¬ (p.2.UpdatedAt < now - ttl ∧ p.2.RideID = ""))
    ∧ (∀ p ∈ s.drivers, p.2.RideID ≠ "" → p ∈ (Store.PruneStaleDrivers now ttl s).drivers)
    ∧ (Store.PruneStaleDrivers now ttl s).lastPruned =
        (s.drivers.countP (prunableB (now - ttl)) : Int)
    ∧ (Store.PruneStaleDrivers now ttl s).lastPruned =
        (s.drivers.length : Int) - ((Store.PruneStaleDrivers now ttl s).drivers.length : Int)
    ∧ (Store.PruneStaleDrivers now ttl s).staleCount =
        (s.drivers.countP (staleB (now - ttl)) : Int)
    ∧ (Store.PruneStaleDrivers now ttl s).pruneCount =
        s.pruneCount + (s.drivers.countP (prunableB (now - ttl)) : Int) := by
  have hmem : ∀ p, p ∈ (Store.PruneStaleDrivers now ttl s).drivers ↔
      p ∈ s.drivers ∧ ¬ (p.2.UpdatedAt < now - ttl ∧ p.2.RideID = "") := by
    intro p
    show p ∈ s.drivers.filter (fun q => ! prunableB (now - ttl) q) ↔ _
    have hb : ((! prunableB (now - ttl) p) = true) ↔
        ¬ (p.2.UpdatedAt < now - ttl ∧ p.2.RideID = "") := by
      simp only [prunableB, Bool.not_eq_true', decide_eq_false_iff_not]
    rw [List.mem_filter, hb]
  refine ⟨hmem, ?_, rfl, ?_, rfl, ?_⟩
  · intro p hp hr
    exact (hmem p).mpr ⟨hp, fun hc => hr hc.2⟩
  · show ((s.drivers.countP (prunableB (now - ttl)) : Nat) : Int) =
      (s.drivers.length : Int) -
        ((s.drivers.filter (fun q => ! prunableB (now - ttl) q)).length : Int)
    have := length_filter_not_add_countP (prunableB (now - ttl)) s.drivers
    omega
  · show (if ((s.drivers.countP (prunableB (now - ttl)) : Nat) : Int) > 0
        then s.pruneCount + ((s.drivers.countP (prunableB (now - ttl)) : Nat) : Int)
        else s.pruneCount) = _
    by_cases h : ((s.drivers.countP (prunableB (now - ttl)) : Nat) : Int) > 0
    · rw [if_pos h]
    · rw [if_neg h]; omega

/-- C8 witness: on a concrete store with one stale attached driver and one
stale free driver, the attached driver survives pruning. -/
theorem pruneStaleDrivers_exact_witness :
    ("d1", drvStaleAttached) ∈ (Store.PruneStaleDrivers 100 10 sPrune).drivers :=
  (pruneStaleDrivers_exact 100 10 sPrune).2.1 ("d1", drvStaleAttached)
    (by decide) (by decide)

/-- C5: AcceptRide returns an error exactly when the ride does not exist,
the driver differs from the assigned driver, or the status is not assigned;
an error leaves the store untouched; on success the ride moves to accepted
(previous status reported as assigned) and the driver entry becomes
accepted, unavailable, with the ride attached. -/
theorem acceptRide_contract (s : Store) (rideID driverID : String) :
    ((∃ e, (Store.AcceptRide rideID driverID s).1 = Except.error e) ↔
      ¬ ∃ r, alookup rideID s.rides = some r ∧ r.DriverID = driverID ∧
        r.Status = RideAssigned)
    ∧ ((∃ e, (Store.AcceptRide rideID driverID s).1 = Except.error e) →
        (Store.AcceptRide rideID driverID s).2 = s)
    ∧ (∀ r, alookup rideID s.rides = some r → r.DriverID = driverID →
        r.Status = RideAssigned →
        (Store.AcceptRide rideID driverID s).1 =
          Except.ok ({ r with Status := RideAccepted }, r.Status)
        ∧ alookup rideID (Store.AcceptRide rideID driverID s).2.rides =
            some { r with Status := RideAccepted }
        ∧ alookup driverID (Store.AcceptRide rideID driverID s).2.drivers =
            some { (alookup driverID s.drivers).getD driverZero with
                   Status := "accepted", Available := false, RideID := r.ID }) := by
  unfold Store.AcceptRide
  cases hr : alookup rideID s.rides with
  | none =>
    dsimp only
    refine ⟨?_, fun _ => rfl, ?_⟩
    · constructor
      · rintro - ⟨r, hr2, -, -⟩; cases hr2
      · intro _; exact ⟨"ride not found", rfl⟩
    · rintro r hr2; cases hr2
  | some ride =>
    dsimp only
    by_cases hd : ride.DriverID ≠ driverID
    · rw [if_pos hd]
      refine ⟨?_, fun _ => rfl, ?_⟩
      · constructor
        · rintro - ⟨r, hr2, hdr, -⟩
          cases hr2
          exact hd hdr
        · intro _; exact ⟨"driver mismatch", rfl⟩
      · rintro r hr2 hdr -
        cases hr2
        exact absurd hdr hd
    · rw [if_neg hd]
      push_neg at hd
      by_cases hst : ride.Status ≠ RideAssigned
      · rw [if_pos hst]
        refine ⟨?_, fun _ => rfl, ?_⟩
        · constructor
          · rintro - ⟨r, hr2, -, hst2⟩
            cases hr2
            exact hst hst2
          · intro _; exact ⟨"ride not in assignable state", rfl⟩
        · rintro r hr2 - hst2
          cases hr2
          exact absurd hst2 hst
      · rw [if_neg hst]
        push_neg at hst
        dsimp only
        refine ⟨?_, ?_, ?_⟩
        · constructor
          · rintro ⟨e, he⟩; exact Except.noConfusion he
          · intro hno; exact absurd ⟨ride, rfl, hd, hst⟩ hno
        · rintro ⟨e, he⟩; exact Except.noConfusion he
        · rintro r hr2 hdr hst2
          cases hr2
          exact ⟨by rw [hst], alookup_aupsert_self _ _ _, alookup_aupsert_self _ _ _⟩

/-- C5 witness: accepting the concretely assigned ride r1 as its driver d1
succeeds with the documented result. -/
theorem acceptRide_contract_witness :
    (Store.AcceptRide "r1" "d1" sAcc).1 =
      Except.ok ({ rideA1 with Status := RideAccepted }, rideA1.Status) :=
  ((acceptRide_contract sAcc "r1" "d1").2.2 rideA1 (by decide) (by decide)
    (by decide)).1

/-- C10: a successful AcceptRide changes only the ride entry keyed by the
ride id and the driver entry keyed by the driver id; every other ride and
driver lookup is unchanged, the accepted ride differs from the original in
the Status field only, and the idempotency cache and counters are
untouched. -/
theorem acceptRide_frame (s : Store) (rideID driverID : String) (r : Ride)
    (hr : alookup rideID s.rides = some r) (hdr : r.DriverID = driverID)
    (hst : r.Status = RideAssigned) :
    (∀ k, k ≠ rideID →
      alookup k (Store.AcceptRide rideID driverID s).2.rides = alookup k s.rides)
    ∧ (∀ k, k ≠ driverID →
      alookup k (Store.AcceptRide rideID driverID s).2.drivers = alookup k s.drivers)
    ∧ (∃ r2, alookup rideID (Store.AcceptRide rideID driverID s).2.rides = some r2
        ∧ r2.ID = r.ID ∧ r2.PassengerID = r.PassengerID ∧ r2.DriverID = r.DriverID
        ∧ r2.Pickup = r.Pickup ∧ r2.CreatedAt = r.CreatedAt ∧ r2.Status = RideAccepted)
    ∧ (Store.AcceptRide rideID driverID s).2.idem = s.idem
    ∧ (Store.AcceptRide rideID driverID s).2.pruneCount = s.pruneCount
    ∧ (Store.AcceptRide rideID driverID s).2.lastPruned = s.lastPruned
    ∧ (Store.AcceptRide rideID driverID s).2.staleCount = s.staleCount := by
  have happ : (Store.AcceptRide rideID driverID s).2 =
      { s with rides := aupsert rideID { r with Status := RideAccepted } s.rides,
               drivers := aupsert driverID
                 { (alookup driverID s.drivers).getD driverZero with
                   Status := "accepted", Available := false, RideID := r.ID }
                 s.drivers } := by
    unfold Store.AcceptRide
    rw [hr]
    dsimp only
    rw [if_neg (not_not_intro hdr), if_neg (not_not_intro hst)]
  rw [happ]
  refine ⟨?_, ?_, ?_, rfl, rfl, rfl, rfl⟩
  · intro k hk
    exact alookup_aupsert_ne _ hk _
  · intro k hk
    exact alookup_aupsert_ne _ hk _
  · exact ⟨{ r with Status := RideAccepted }, alookup_aupsert_self _ _ _,
      rfl, rfl, rfl, rfl, rfl, rfl⟩

/-- C10 witness: in the two-ride two-driver store, accepting r1 as d1 leaves
the unrelated ride r2 and driver d2 lookups unchanged. -/
theorem acceptRide_frame_witness :
    alookup "r2" (Store.AcceptRide "r1" "d1" sTwo).2.rides = alookup "r2" sTwo.rides
    ∧ alookup "d2" (Store.AcceptRide "r1" "d1" sTwo).2.drivers = alookup "d2" sTwo.drivers :=
  ⟨(acceptRide_frame sTwo "r1" "d1" rideA1 (by decide) (by decide) (by decide)).1
      "r2" (by decide),
   (acceptRide_frame sTwo "r1" "d1" rideA1 (by decide) (by decide) (by decide)).2.1
      "d2" (by decide)⟩

/-- C6: ReassignIfUnaccepted on an existing ride that is not assigned, or is
assigned to a different driver than expected, returns the ride with changed
false, no error, and the store completely unchanged. -/
theorem reassign_noop (hav : Coordinate → Coordinate → Rat)
    (geoNearby : Coordinate → Rat → Option (String × Rat)) (s : Store)
    (rideID expectedDriverID : String) (r : Ride)
    (hr : alookup rideID s.rides = some r)
    (hne : r.Status ≠ RideAssigned ∨ r.DriverID ≠ expectedDriverID) :
    Store.ReassignIfUnaccepted hav geoNearby rideID expectedDriverID s =
      (Except.ok (r, false), s) := by
  unfold Store.ReassignIfUnaccepted
  rw [hr]
  dsimp only
  rw [if_pos hne]

/-- C6 witness: the watchdog firing on the already accepted ride r1 is a
no-op with changed false. -/
theorem reassign_noop_witness :
    Store.ReassignIfUnaccepted farDistKM geoNone "r1" "d1" sAccDone =
      (Except.ok (rideAccepted1, false), sAccDone) :=
  reassign_noop farDistKM geoNone sAccDone "r1" "d1" rideAccepted1
    (by decide) (Or.inl (by decide))

/-- C7: when ReassignIfUnaccepted triggers (ride still assigned to exactly
the expected driver, which is present in the driver map), it releases that
driver to idle and available with an empty ride id; matching re-runs over
the released state excluding that driver; when a replacement is found the
ride stays assigned with the replacement (which is never the released
driver) attached as an unavailable assigned driver, and when none is found
the ride reverts to requested with an empty driver id; in both cases the
reported changed flag is true. -/
theorem reassign_triggered (hav : Coordinate → Coordinate → Rat)
    (geoNearby : Coordinate → Rat → Option (String × Rat)) (s : Store)
    (rideID expectedDriverID : String) (r : Ride) (d : DriverState)
    (hr : alookup rideID s.rides = some r) (hst : r.Status = RideAssigned)
    (hdr : r.DriverID = expectedDriverID)
    (hd : alookup expectedDriverID s.drivers = some d)
    (hid : d.ID = expectedDriverID) :
    (let freed := { d with Status := "idle", Available := true, RideID := "" }
     let drivers1 := aupsert expectedDriverID freed s.drivers
     let next := (findNearestDriverLockedExcluding hav (geoNearby r.Pickup 3)
        drivers1 r.Pickup 3 [expectedDriverID]).1
     let res := Store.ReassignIfUnaccepted hav geoNearby rideID expectedDriverID s
     alookup expectedDriverID res.2.drivers = some freed
     ∧ (next = "" →
         res.1 = Except.ok ({ r with Status := RideRequested, DriverID := "" }, true)
         ∧ alookup rideID res.2.rides = some { r with Status := RideRequested, DriverID := "" })
     ∧ (next ≠ "" →
         next ≠ expectedDriverID
         ∧ res.1 = Except.ok ({ r with DriverID := next, Status := RideAssigned }, true)
         ∧ alookup rideID res.2.rides = some { r with DriverID := next, Status := RideAssigned }
         ∧ alookup next res.2.drivers = some { (alookup next drivers1).getD driverZero with
             RideID := r.ID, Status := "assigned", Available := false })) := by
  have hres : Store.ReassignIfUnaccepted hav geoNearby rideID expectedDriverID s =
      (let freed := { d with Status := "idle", Available := true, RideID := "" }
       let s1 : Store := { s with drivers := aupsert expectedDriverID freed s.drivers }
       let found := findNearestDriverLockedExcluding hav (geoNearby r.Pickup 3)
         s1.drivers r.Pickup 3 [expectedDriverID]
       if found.1 = "" then
         let ride1 := { r with Status := RideRequested, DriverID := "" }
         (Except.ok (ride1, true), { s1 with rides := aupsert rideID ride1 s1.rides })
       else
         let ride1 := { r with DriverID := found.1, Status := RideAssigned }
         let d0 := (alookup found.1 s1.drivers).getD driverZero
         let d1 := { d0 with RideID := ride1.ID, Status := "assigned", Available := false }
         (Except.ok (ride1, true),
           { s1 with rides := aupsert rideID ride1 s1.rides,
                     drivers := aupsert found.1 d1 s1.drivers })) := by
    unfold Store.ReassignIfUnaccepted
    rw [hr]
    dsimp only
    rw [if_neg (fun hc => hc.elim (fun h1 => h1 hst) (fun h2 => h2 hdr)), hd]
    dsimp only
    rw [hid]
  dsimp only
  rw [hres]
  dsimp only
  by_cases hnext : (findNearestDriverLockedExcluding hav (geoNearby r.Pickup 3)
      (aupsert expectedDriverID { d with Status := "idle", Available := true, RideID := "" }
        s.drivers) r.Pickup 3 [expectedDriverID]).1 = ""
  · rw [if_pos hnext]
    exact ⟨alookup_aupsert_self _ _ _,
      fun _ => ⟨rfl, alookup_aupsert_self _ _ _⟩,
      fun hne2 => absurd hnext hne2⟩
  · rw [if_neg hnext]
    have hsel := findNearest_sel hav (geoNearby r.Pickup 3)
      (aupsert expectedDriverID { d with Status := "idle", Available := true, RideID := "" }
        s.drivers) r.Pickup 3 [expectedDriverID] hnext
    have hne : (findNearestDriverLockedExcluding hav (geoNearby r.Pickup 3)
        (aupsert expectedDriverID { d with Status := "idle", Available := true, RideID := "" }
          s.drivers) r.Pickup 3 [expectedDriverID]).1 ≠ expectedDriverID := by
      intro hc
      exact hsel.1 (by rw [hc]; exact List.mem_singleton.mpr rfl)
    refine ⟨?_, fun h0 => absurd h0 hnext, fun _ => ⟨hne, rfl,
      alookup_aupsert_self _ _ _, alookup_aupsert_self _ _ _⟩⟩
    · rw [alookup_aupsert_ne _ (fun h => hne h.symm) _]
      exact alookup_aupsert_self _ _ _

/-- Whenever the in-memory idempotency cache lookup hits, the replay path of
`lookupRideByKeyLocked` calls `GetRide`, whose read-lock acquisition under
the held store write lock never completes. -/
theorem lookupRideByKey_deadlock_on_hit (now : Int) (key : String) (s : Store)
    (hk : key ≠ "") (hhit : ((s.idem.Lookup now key).1).isSome = true) :
    Store.lookupRideByKeyLocked now key s = none := by
  unfold Store.lookupRideByKeyLocked
  rw [if_neg hk]
  cases hl : s.idem.Lookup now key with
  | mk o c1 =>
    cases o with
    | none => rw [hl] at hhit; simp at hhit
    | some id => rfl

/-- C3: the concrete replay scenario. After a heartbeat from d1, CreateRide
with the idempotency key k completes and creates ride_2, recording the key
with a 30-minute expiry; a second CreateRide one nanosecond later with the
same key and pickup never completes — inside the held write lock the replay
path calls GetRide, which blocks acquiring the read lock of the same
RWMutex — instead of returning ride_2 as the spec requires. -/
theorem createRide_replay_deadlock :
    ((Store.CreateRide farDistKM geoNone 2 "p1" locO "k" sHeart).map
        (fun pr => (pr.1.toOption.map Ride.ID,
          alookup "k" pr.2.idem.byKey,
          (Store.CreateRide farDistKM geoNone 3 "p1" locO "k" pr.2).isNone)))
      = some (some "ride_2",
          some { rideID := "ride_2", expiry := 2 + 30 * 60 * 1000000000 },
          true) := by decide

theorem rideIdFor_ne_empty (now : Int) : rideIdFor now ≠ "" := by
  intro h
  have h2 := congrArg String.length h
  simp [rideIdFor, String.length_append] at h2
  exact absurd h2.1 (by decide)

theorem forall_mem_aupsert {α : Type} (P : String × α → Prop) (k : String)
    (v : α) (l : List (String × α)) (hP : ∀ p ∈ l, P p) (hkv : P (k, v)) :
    ∀ p ∈ aupsert k v l, P p := by
  intro p hp
  rcases mem_aupsert hp with h | h
  · rw [h]; exact hkv
  · exact hP p h

theorem forall_mem_filter {α : Type} (P : α → Prop) (f : α → Bool)
    (l : List α) (hP : ∀ p ∈ l, P p) : ∀ p ∈ l.filter f, P p :=
  fun p hp => hP p (List.mem_filter.mp hp).1

/-- A completed `lookupRideByKeyLocked` always reports a miss (the hit path
never completes) and changes at most the idempotency cache. -/
theorem lookupRideByKey_shape (now : Int) (key : String) (s : Store)
    (pr : Option Ride × Store) (h : Store.lookupRideByKeyLocked now key s = some pr) :
    pr.1 = none ∧ ∃ c1, pr.2 = { s with idem := c1 } := by
  unfold Store.lookupRideByKeyLocked at h
  by_cases hk : key = ""
  · rw [if_pos hk] at h
    cases h
    exact ⟨rfl, s.idem, rfl⟩
  · rw [if_neg hk] at h
    cases hl : s.idem.Lookup now key with
    | mk o c1 =>
      rw [hl] at h
      cases o with
      | some id =>
        exact absurd h (by simp [Store.GetRideWith, rlockAcquire])
      | none =>
        cases h
        exact ⟨rfl, c1, rfl⟩

theorem wf_updateDriverLocation (now : Int) (id : String) (loc : Coordinate)
    (s : Store) (hw : StoreWF s) :
    StoreWF (Store.UpdateDriverLocation now id loc s).2 := by
  obtain ⟨hd, hr⟩ := hw
  refine ⟨forall_mem_aupsert _ _ _ _ hd ?_, hr⟩
  cases halk : alookup id s.drivers with
  | none =>
    exact ⟨fun h => Bool.noConfusion h, fun _ => rfl⟩
  | some existing =>
    dsimp only
    by_cases hrid : existing.RideID ≠ ""
    · rw [if_pos hrid]
      exact ⟨fun _ => hrid, fun h => Bool.noConfusion h⟩
    · rw [if_neg hrid]
      push_neg at hrid
      exact ⟨fun h => Bool.noConfusion h, fun _ => hrid⟩

theorem wf_createRide (hav : Coordinate → Coordinate → Rat)
    (geoNearby : Coordinate → Rat → Option (String × Rat)) (now : Int)
    (passengerID : String) (pickup : Coordinate) (idemKey : String) (s : Store)
    (pr : Except String Ride × Store)
    (h : Store.CreateRide hav geoNearby now passengerID pickup idemKey s = some pr)
    (hw : StoreWF s) : StoreWF pr.2 := by
  obtain ⟨hdI, hrI⟩ := hw
  unfold Store.CreateRide at h
  cases hstep : (if idemKey ≠ "" then Store.lookupRideByKeyLocked now idemKey s
      else some (none, s)) with
  | none => rw [hstep] at h; cases h
  | some pr0 =>
    rw [hstep] at h
    have hshape : pr0.1 = none ∧ ∃ c1, pr0.2 = { s with idem := c1 } := by
      by_cases hk : idemKey ≠ ""
      · rw [if_pos hk] at hstep
        exact lookupRideByKey_shape _ _ _ _ hstep
      · rw [if_neg hk] at hstep
        cases hstep
        exact ⟨rfl, s.idem, rfl⟩
    obtain ⟨o, s1⟩ := pr0
    obtain ⟨ho, c1, hs1⟩ := hshape
    dsimp only at ho hs1
    subst ho
    subst hs1
    dsimp only at h
    by_cases hfound : (findNearestDriverLocked hav (geoNearby pickup 3)
        ({ s with idem := c1 } : Store).drivers pickup 3).1 = ""
    · rw [if_pos hfound] at h
      cases h
      exact ⟨hdI, hrI⟩
    · rw [if_neg hfound] at h
      cases h
      refine ⟨forall_mem_aupsert _ _ _ _ hdI ?_, forall_mem_aupsert _ _ _ _ hrI ?_⟩
      · exact ⟨fun _ => rideIdFor_ne_empty now, fun hc => Bool.noConfusion hc⟩
      · exact ⟨rfl, rideIdFor_ne_empty now, Or.inr (Or.inl rfl)⟩

theorem wf_acceptRide (rideID driverID : String) (s : Store) (hw : StoreWF s) :
    StoreWF (Store.AcceptRide rideID driverID s).2 := by
  obtain ⟨hdI, hrI⟩ := hw
  unfold Store.AcceptRide
  cases hlk : alookup rideID s.rides with
  | none => exact ⟨hdI, hrI⟩
  | some ride =>
    dsimp only
    by_cases h1 : ride.DriverID ≠ driverID
    · rw [if_pos h1]; exact ⟨hdI, hrI⟩
    · rw [if_neg h1]
      by_cases h2 : ride.Status ≠ RideAssigned
      · rw [if_pos h2]; exact ⟨hdI, hrI⟩
      · rw [if_neg h2]
        have hok := hrI _ (alookup_mem hlk)
        refine ⟨forall_mem_aupsert _ _ _ _ hdI ?_, forall_mem_aupsert _ _ _ _ hrI ?_⟩
        · refine ⟨fun _ => ?_, fun hc => Bool.noConfusion hc⟩
          show ride.ID ≠ ""
          rw [hok.1]
          exact hok.2.1
        · exact ⟨hok.1, hok.2.1, Or.inr (Or.inr (Or.inl rfl))⟩

theorem wf_cancelRide (rideID : String) (s : Store) (hw : StoreWF s) :
    StoreWF (Store.CancelRide rideID s).2 := by
  obtain ⟨hdI, hrI⟩ := hw
  unfold Store.CancelRide
  cases hlk : alookup rideID s.rides with
  | none => exact ⟨hdI, hrI⟩
  | some ride =>
    dsimp only
    by_cases h1 : ride.Status = RideCancelled ∨ ride.Status = RideComplete
    · rw [if_pos h1]; exact ⟨hdI, hrI⟩
    · rw [if_neg h1]
      have hok := hrI _ (alookup_mem hlk)
      have hrok : RideOK (rideID, { ride with Status := RideCancelled }) :=
        ⟨hok.1, hok.2.1, Or.inr (Or.inr (Or.inr (Or.inr (Or.inr rfl))))⟩
      by_cases h2 : ride.DriverID ≠ ""
      · rw [if_pos h2]
        exact ⟨forall_mem_aupsert _ _ _ _ hdI
            ⟨fun hc => Bool.noConfusion hc, fun _ => rfl⟩,
          forall_mem_aupsert _ _ _ _ hrI hrok⟩
      · rw [if_neg h2]
        exact ⟨hdI, forall_mem_aupsert _ _ _ _ hrI hrok⟩

theorem wf_completeRide (rideID : String) (s : Store) (hw : StoreWF s) :
    StoreWF (Store.CompleteRide rideID s).2 := by
  obtain ⟨hdI, hrI⟩ := hw
  unfold Store.CompleteRide
  cases hlk : alookup rideID s.rides with
  | none => exact ⟨hdI, hrI⟩
  | some ride =>
    dsimp only
    by_cases h1 : ride.Status ≠ RideAccepted ∧ ride.Status ≠ RideEnRoute
    · rw [if_pos h1]; exact ⟨hdI, hrI⟩
    · rw [if_neg h1]
      have hok := hrI _ (alookup_mem hlk)
      have hrok : RideOK (rideID, { ride with Status := RideComplete }) :=
        ⟨hok.1, hok.2.1, Or.inr (Or.inr (Or.inr (Or.inr (Or.inl rfl))))⟩
      by_cases h2 : ride.DriverID ≠ ""
      · rw [if_pos h2]
        exact ⟨forall_mem_aupsert _ _ _ _ hdI
            ⟨fun hc => Bool.noConfusion hc, fun _ => rfl⟩,
          forall_mem_aupsert _ _ _ _ hrI hrok⟩
      · rw [if_neg h2]
        exact ⟨hdI, forall_mem_aupsert _ _ _ _ hrI hrok⟩

theorem wf_reassign (hav : Coordinate → Coordinate → Rat)
    (geoNearby : Coordinate → Rat → Option (String × Rat))
    (rideID expectedDriverID : String) (s : Store) (hw : StoreWF s) :
    StoreWF (Store.ReassignIfUnaccepted hav geoNearby rideID expectedDriverID s).2 := by
  obtain ⟨hdI, hrI⟩ := hw
  unfold Store.ReassignIfUnaccepted
  cases hlk : alookup rideID s.rides with
  | none => exact ⟨hdI, hrI⟩
  | some ride =>
    dsimp only
    by_cases h1 : ride.Status ≠ RideAssigned ∨ ride.DriverID ≠ expectedDriverID
    · rw [if_pos h1]; exact ⟨hdI, hrI⟩
    · rw [if_neg h1]
      have hok := hrI _ (alookup_mem hlk)
      have hridne : ride.ID ≠ "" := by rw [hok.1]; exact hok.2.1
      have hd1 : ∀ s1 : Store,
          (match alookup expectedDriverID s.drivers with
           | some d =>
             let freed := { d with Status := "idle", Available := true, RideID := "" }
             { s with drivers := aupsert freed.ID freed s.drivers }
           | none => s) = s1 → DriverInv s1.drivers ∧ s1.rides = s.rides := by
        intro s1 hs1
        cases h2 : alookup expectedDriverID s.drivers with
        | none =>
          rw [h2] at hs1
          rw [← hs1]
          exact ⟨hdI, rfl⟩
        | some d =>
          rw [h2] at hs1
          rw [← hs1]
          exact ⟨forall_mem_aupsert _ _ _ _ hdI
            ⟨fun hc => Bool.noConfusion hc, fun _ => rfl⟩, rfl⟩
      obtain ⟨hd1I, hr1eq⟩ := hd1 _ rfl
      by_cases hfound : (findNearestDriverLockedExcluding hav (geoNearby ride.Pickup 3)
          (match alookup expectedDriverID s.drivers with
           | some d =>
             let freed := { d with Status := "idle", Available := true, RideID := "" }
             { s with drivers := aupsert freed.ID freed s.drivers }
           | none => s : Store).drivers ride.Pickup 3 [expectedDriverID]).1 = ""
      · rw [if_pos hfound]
        refine ⟨hd1I, ?_⟩
        show RidesWF (aupsert rideID { ride with Status := RideRequested, DriverID := "" } _)
        rw [hr1eq]
        exact forall_mem_aupsert _ _ _ _ hrI ⟨hok.1, hok.2.1, Or.inl rfl⟩
      · rw [if_neg hfound]
        refine ⟨forall_mem_aupsert _ _ _ _ hd1I
            ⟨fun _ => hridne, fun hc => Bool.noConfusion hc⟩, ?_⟩
        show RidesWF (aupsert rideID { ride with DriverID := _, Status := RideAssigned } _)
        rw [hr1eq]
        exact forall_mem_aupsert _ _ _ _ hrI ⟨hok.1, hok.2.1, Or.inr (Or.inl rfl)⟩

theorem wf_prune (now ttl : Int) (s : Store) (hw : StoreWF s) :
    StoreWF (Store.PruneStaleDrivers now ttl s) := by
  obtain ⟨hdI, hrI⟩ := hw
  exact ⟨forall_mem_filter _ _ _ hdI, hrI⟩

theorem wf_step {s s1 : Store} (h : Step s s1) (hw : StoreWF s) : StoreWF s1 := by
  obtain ⟨op, hadmin, happ⟩ := h
  cases op with
  | updateDriverLocation now id loc =>
    obtain rfl : (Store.UpdateDriverLocation now id loc s).2 = s1 :=
      Option.some.inj happ
    exact wf_updateDriverLocation now id loc s hw
  | createRide hav geo now pid pickup key =>
    simp only [StoreOp.apply, Option.map_eq_some'] at happ
    obtain ⟨pr, hpr, h2⟩ := happ
    rw [← h2]
    exact wf_createRide hav geo now pid pickup key s pr hpr hw
  | acceptRide rideID driverID =>
    obtain rfl : (Store.AcceptRide rideID driverID s).2 = s1 := Option.some.inj happ
    exact wf_acceptRide rideID driverID s hw
  | cancelRide rideID =>
    obtain rfl : (Store.CancelRide rideID s).2 = s1 := Option.some.inj happ
    exact wf_cancelRide rideID s hw
  | completeRide rideID =>
    obtain rfl : (Store.CompleteRide rideID s).2 = s1 := Option.some.inj happ
    exact wf_completeRide rideID s hw
  | updateRideStatus rideID status =>
    simp [StoreOp.isAdmin] at hadmin
  | reassignIfUnaccepted hav geo rideID expected =>
    obtain rfl : (Store.ReassignIfUnaccepted hav geo rideID expected s).2 = s1 :=
      Option.some.inj happ
    exact wf_reassign hav geo rideID expected s hw
  | pruneStaleDrivers now ttl =>
    obtain rfl : Store.PruneStaleDrivers now ttl s = s1 := Option.some.inj happ
    exact wf_prune now ttl s hw

theorem wf_new : StoreWF Store.new :=
  ⟨fun p hp => absurd hp (List.not_mem_nil p), fun p hp => absurd hp (List.not_mem_nil p)⟩

theorem reachable_wf {s : Store} (h : Reachable s) : StoreWF s := by
  induction h with
  | refl => exact wf_new
  | tail hab hbc ih => exact wf_step hbc ih

/-- C2: in every store reachable from the fresh store by completed
operations (UpdateDriverLocation, CreateRide, AcceptRide, CancelRide,
CompleteRide, ReassignIfUnaccepted, PruneStaleDrivers), every driver with
Available false has a non-empty RideID and every driver with Available true
has an empty RideID. -/
theorem driver_availability_invariant (s : Store) (h : Reachable s) :
    DriverInv s.drivers :=
  (reachable_wf h).1

/-- C2 witness: the invariant holds in the concrete reachable store obtained
by one completed heartbeat on the fresh store. -/
theorem driver_availability_invariant_witness : DriverInv sHeart.drivers :=
  driver_availability_invariant sHeart
    (Relation.ReflTransGen.single ⟨StoreOp.updateDriverLocation 1 "d1" locO, rfl, rfl⟩)

theorem rideEdge_not_terminal_src (a b : RideStatus) (h : RideEdge a b) :
    ¬ (a = RideComplete ∨ a = RideCancelled) := by
  rcases h with ⟨ha, -⟩ | ⟨ha, -⟩ | ⟨ha, -⟩ | ⟨ha, -⟩ <;> subst ha <;>
    rintro (hc | hc) <;> exact absurd hc (by decide)

theorem edges_unchanged {s s1 : Store} (heq : s1.rides = s.rides) :
    ∀ k r, alookup k s.rides = some r →
      ∃ r2, alookup k s1.rides = some r2
        ∧ (r2.Status = r.Status ∨ RideEdge r.Status r2.Status)
        ∧ ((r.Status = RideComplete ∨ r.Status = RideCancelled) →
            r2.Status = r.Status) := by
  intro k r hk
  exact ⟨r, by rw [heq]; exact hk, Or.inl rfl, fun _ => rfl⟩

theorem edges_aupsert {s : Store} {s1 : Store} {rid : String} {rNew : Ride}
    (heq : s1.rides = aupsert rid rNew s.rides)
    (hold : ∀ rOld, alookup rid s.rides = some rOld →
      (rNew.Status = rOld.Status ∨ RideEdge rOld.Status rNew.Status)) :
    ∀ k r, alookup k s.rides = some r →
      ∃ r2, alookup k s1.rides = some r2
        ∧ (r2.Status = r.Status ∨ RideEdge r.Status r2.Status)
        ∧ ((r.Status = RideComplete ∨ r.Status = RideCancelled) →
            r2.Status = r.Status) := by
  intro k r hk
  by_cases hkr : k = rid
  · subst hkr
    have he := hold r hk
    refine ⟨rNew, by rw [heq]; exact alookup_aupsert_self _ _ _, ?_, ?_⟩
    · rcases he with he | he
      · exact Or.inl he
      · exact Or.inr he
    · intro hterm
      rcases he with he | he
      · exact he
      · exact absurd hterm (rideEdge_not_terminal_src _ _ he)
  · exact ⟨r, by rw [heq, alookup_aupsert_ne _ hkr _]; exact hk, Or.inl rfl, fun _ => rfl⟩

/-- A completed CreateRide leaves the ride map unchanged or inserts exactly
one fresh assigned ride under the generated id. -/
theorem createRide_state (hav : Coordinate → Coordinate → Rat)
    (geoNearby : Coordinate → Rat → Option (String × Rat)) (now : Int)
    (passengerID : String) (pickup : Coordinate) (idemKey : String) (s : Store)
    (pr : Except String Ride × Store)
    (h : Store.CreateRide hav geoNearby now passengerID pickup idemKey s = some pr) :
    pr.2.rides = s.rides ∨
    ∃ nid, nid ≠ "" ∧ pr.2.rides = aupsert (rideIdFor now)
      { ID := rideIdFor now, PassengerID := passengerID, DriverID := nid,
        Status := RideAssigned, Pickup := pickup, CreatedAt := now } s.rides := by
  unfold Store.CreateRide at h
  cases hstep : (if idemKey ≠ "" then Store.lookupRideByKeyLocked now idemKey s
      else some (none, s)) with
  | none => rw [hstep] at h; cases h
  | some pr0 =>
    rw [hstep] at h
    have hshape : pr0.1 = none ∧ ∃ c1, pr0.2 = { s with idem := c1 } := by
      by_cases hk : idemKey ≠ ""
      · rw [if_pos hk] at hstep
        exact lookupRideByKey_shape _ _ _ _ hstep
      · rw [if_neg hk] at hstep
        cases hstep
        exact ⟨rfl, s.idem, rfl⟩
    obtain ⟨o, s1⟩ := pr0
    obtain ⟨ho, c1, hs1⟩ := hshape
    dsimp only at ho hs1
    subst ho
    subst hs1
    dsimp only at h
    by_cases hfound : (findNearestDriverLocked hav (geoNearby pickup 3)
        ({ s with idem := c1 } : Store).drivers pickup 3).1 = ""
    · rw [if_pos hfound] at h
      cases h
      exact Or.inl rfl
    · rw [if_neg hfound] at h
      cases h
      exact Or.inr ⟨_, hfound, rfl⟩

/-- AcceptRide leaves the ride map unchanged or updates exactly the found
assigned ride to accepted. -/
theorem acceptRide_state (rideID driverID : String) (s : Store) :
    (Store.AcceptRide rideID driverID s).2 = s ∨
    ∃ ride, alookup rideID s.rides = some ride ∧ ride.Status = RideAssigned ∧
      (Store.AcceptRide rideID driverID s).2.rides =
        aupsert rideID { ride with Status := RideAccepted } s.rides := by
  unfold Store.AcceptRide
  cases hlk : alookup rideID s.rides with
  | none => exact Or.inl rfl
  | some ride =>
    dsimp only
    by_cases h1 : ride.DriverID ≠ driverID
    · rw [if_pos h1]; exact Or.inl rfl
    · rw [if_neg h1]
      by_cases h2 : ride.Status ≠ RideAssigned
      · rw [if_pos h2]; exact Or.inl rfl
      · rw [if_neg h2]
        push_neg at h2
        exact Or.inr ⟨ride, rfl, h2, rfl⟩

/-- CancelRide leaves the ride map unchanged or updates exactly the found
non-finished ride to cancelled. -/
theorem cancelRide_state (rideID : String) (s : Store) :
    (Store.CancelRide rideID s).2 = s ∨
    ∃ ride, alookup rideID s.rides = some ride ∧
      ¬ (ride.Status = RideCancelled ∨ ride.Status = RideComplete) ∧
      (Store.CancelRide rideID s).2.rides =
        aupsert rideID { ride with Status := RideCancelled } s.rides := by
  unfold Store.CancelRide
  cases hlk : alookup rideID s.rides with
  | none => exact Or.inl rfl
  | some ride =>
    dsimp only
    by_cases h1 : ride.Status = RideCancelled ∨ ride.Status = RideComplete
    · rw [if_pos h1]; exact Or.inl rfl
    · rw [if_neg h1]
      by_cases h2 : ({ ride with Status := RideCancelled } : Ride).DriverID ≠ ""
      · rw [if_pos h2]; exact Or.inr ⟨ride, rfl, h1, rfl⟩
      · rw [if_neg h2]; exact Or.inr ⟨ride, rfl, h1, rfl⟩

/-- CompleteRide leaves the ride map unchanged or updates exactly the found
in-progress ride to complete. -/
theorem completeRide_state (rideID : String) (s : Store) :
    (Store.CompleteRide rideID s).2 = s ∨
    ∃ ride, alookup rideID s.rides = some ride ∧
      (ride.Status = RideAccepted ∨ ride.Status = RideEnRoute) ∧
      (Store.CompleteRide rideID s).2.rides =
        aupsert rideID { ride with Status := RideComplete } s.rides := by
  unfold Store.CompleteRide
  cases hlk : alookup rideID s.rides with
  | none => exact Or.inl rfl
  | some ride =>
    dsimp only
    by_cases h1 : ride.Status ≠ RideAccepted ∧ ride.Status ≠ RideEnRoute
    · rw [if_pos h1]; exact Or.inl rfl
    · rw [if_neg h1]
      push_neg at h1
      have h3 : ride.Status = RideAccepted ∨ ride.Status = RideEnRoute := by
        by_cases h4 : ride.Status = RideAccepted
        · exact Or.inl h4
        · exact Or.inr (h1 h4)
      by_cases h2 : ({ ride with Status := RideComplete } : Ride).DriverID ≠ ""
      · rw [if_pos h2]; exact Or.inr ⟨ride, rfl, h3, rfl⟩
      · rw [if_neg h2]; exact Or.inr ⟨ride, rfl, h3, rfl⟩

/-- ReassignIfUnaccepted leaves the ride map unchanged or updates exactly
the found assigned ride, either reverting it to requested or keeping it
assigned under a new driver. -/
theorem reassign_state (hav : Coordinate → Coordinate → Rat)
    (geoNearby : Coordinate → Rat → Option (String × Rat))
    (rideID expectedDriverID : String) (s : Store) :
    (Store.ReassignIfUnaccepted hav geoNearby rideID expectedDriverID s).2 = s ∨
    ∃ ride, alookup rideID s.rides = some ride ∧ ride.Status = RideAssigned ∧
      ((Store.ReassignIfUnaccepted hav geoNearby rideID expectedDriverID s).2.rides =
          aupsert rideID { ride with Status := RideRequested, DriverID := "" } s.rides
       ∨ ∃ nid, (Store.ReassignIfUnaccepted hav geoNearby rideID expectedDriverID s).2.rides =
          aupsert rideID { ride with DriverID := nid, Status := RideAssigned } s.rides) := by
  unfold Store.ReassignIfUnaccepted
  cases hlk : alookup rideID s.rides with
  | none => exact Or.inl rfl
  | some ride =>
    dsimp only
    by_cases h1 : ride.Status ≠ RideAssigned ∨ ride.DriverID ≠ expectedDriverID
    · rw [if_pos h1]; exact Or.inl rfl
    · rw [if_neg h1]
      push_neg at h1
      cases hd2 : alookup expectedDriverID s.drivers with
      | none =>
        dsimp only
        by_cases hfound : (findNearestDriverLockedExcluding hav (geoNearby ride.Pickup 3)
            s.drivers ride.Pickup 3 [expectedDriverID]).1 = ""
        · rw [if_pos hfound]
          exact Or.inr ⟨ride, rfl, h1.1, Or.inl rfl⟩
        · rw [if_neg hfound]
          exact Or.inr ⟨ride, rfl, h1.1, Or.inr ⟨_, rfl⟩⟩
      | some d =>
        dsimp only
        by_cases hfound : (findNearestDriverLockedExcluding hav (geoNearby ride.Pickup 3)
            (aupsert ({ d with Status := "idle", Available := true, RideID := "" } : DriverState).ID
              { d with Status := "idle", Available := true, RideID := "" } s.drivers)
            ride.Pickup 3 [expectedDriverID]).1 = ""
        · rw [if_pos hfound]
          exact Or.inr ⟨ride, rfl, h1.1, Or.inl rfl⟩
        · rw [if_neg hfound]
          exact Or.inr ⟨ride, rfl, h1.1, Or.inr ⟨_, rfl⟩⟩

/-- C4 (amended): in every reachable store, every completed non-admin
operation (UpdateDriverLocation, CreateRide with a non-colliding generated
ride id, AcceptRide, CancelRide, CompleteRide, ReassignIfUnaccepted,
PruneStaleDrivers) keeps every existing ride present, and either leaves its
status unchanged or moves it along an edge of the ride state machine; in
particular a ride in a terminal status (complete or cancelled) never
changes status. The admin override UpdateRideStatus is excluded: it can
rewrite any status (see the counterexample). -/
theorem ride_state_machine (s s1 : Store) (op : StoreOp)
    (hop : op.isAdmin = false) (hfresh : op.freshFor s) (hreach : Reachable s)
    (happ : op.apply s = some s1) :
    ∀ k r, alookup k s.rides = some r →
      ∃ r2, alookup k s1.rides = some r2
        ∧ (r2.Status = r.Status ∨ RideEdge r.Status r2.Status)
        ∧ ((r.Status = RideComplete ∨ r.Status = RideCancelled) →
            r2.Status = r.Status) := by
  have hw := reachable_wf hreach
  cases op with
  | updateDriverLocation now id loc =>
    obtain rfl := Option.some.inj happ
    exact edges_unchanged rfl
  | pruneStaleDrivers now ttl =>
    obtain rfl := Option.some.inj happ
    exact edges_unchanged rfl
  | updateRideStatus rid st => simp [StoreOp.isAdmin] at hop
  | createRide hav geo now pid pickup key =>
    simp only [StoreOp.apply, Option.map_eq_some'] at happ
    obtain ⟨pr, hpr, h2⟩ := happ
    subst h2
    rcases createRide_state hav geo now pid pickup key s pr hpr with heq | ⟨nid, -, heq⟩
    · exact edges_unchanged heq
    · refine edges_aupsert heq ?_
      intro rOld hc
      have hfresh2 : alookup (rideIdFor now) s.rides = none := hfresh
      rw [hfresh2] at hc
      cases hc
  | acceptRide rideID driverID =>
    obtain rfl := Option.some.inj happ
    rcases acceptRide_state rideID driverID s with heq | ⟨ride, hlk, hst, heq⟩
    · exact edges_unchanged (congrArg Store.rides heq)
    · refine edges_aupsert heq ?_
      intro rOld hc
      rw [hlk] at hc
      injection hc with hc2
      subst hc2
      exact Or.inr (Or.inr (Or.inl ⟨hst, Or.inl rfl⟩))
  | cancelRide rideID =>
    obtain rfl := Option.some.inj happ
    rcases cancelRide_state rideID s with heq | ⟨ride, hlk, hterm, heq⟩
    · exact edges_unchanged (congrArg Store.rides heq)
    · refine edges_aupsert heq ?_
      intro rOld hc
      rw [hlk] at hc
      injection hc with hc2
      subst hc2
      refine Or.inr ?_
      have hvalid := (hw.2 _ (alookup_mem hlk)).2.2
      rcases hvalid with hv | hv | hv | hv | hv | hv
      · exact Or.inl ⟨hv, Or.inr rfl⟩
      · exact Or.inr (Or.inl ⟨hv, Or.inr (Or.inr (Or.inr rfl))⟩)
      · exact Or.inr (Or.inr (Or.inl ⟨hv, Or.inr (Or.inr rfl)⟩))
      · exact Or.inr (Or.inr (Or.inr ⟨hv, Or.inr rfl⟩))
      · exact absurd (Or.inr hv) hterm
      · exact absurd (Or.inl hv) hterm
  | completeRide rideID =>
    obtain rfl := Option.some.inj happ
    rcases completeRide_state rideID s with heq | ⟨ride, hlk, hst, heq⟩
    · exact edges_unchanged (congrArg Store.rides heq)
    · refine edges_aupsert heq ?_
      intro rOld hc
      rw [hlk] at hc
      injection hc with hc2
      subst hc2
      rcases hst with hv | hv
      · exact Or.inr (Or.inr (Or.inr (Or.inl ⟨hv, Or.inr (Or.inl rfl)⟩)))
      · exact Or.inr (Or.inr (Or.inr (Or.inr ⟨hv, Or.inl rfl⟩)))
  | reassignIfUnaccepted hav geo rideID expected =>
    obtain rfl := Option.some.inj happ
    rcases reassign_state hav geo rideID expected s with heq | ⟨ride, hlk, hst, hbr⟩
    · exact edges_unchanged (congrArg Store.rides heq)
    · rcases hbr with heq | ⟨nid, heq⟩
      · refine edges_aupsert heq ?_
        intro rOld hc
        rw [hlk] at hc
        injection hc with hc2
        subst hc2
        exact Or.inr (Or.inr (Or.inl ⟨hst, Or.inr (Or.inr (Or.inl rfl))⟩))
      · refine edges_aupsert heq ?_
        intro rOld hc
        rw [hlk] at hc
        injection hc with hc2
        subst hc2
        exact Or.inr (Or.inr (Or.inl ⟨hst, Or.inr (Or.inl rfl)⟩))

/-- C4 witness: in the concrete reachable store holding the assigned ride
ride_2, the completed AcceptRide step keeps the ride present and moves it
along an edge of the state machine. -/
theorem ride_state_machine_witness :
    ∃ r2, alookup "ride_2" (Store.AcceptRide "ride_2" "d1" sRide).2.rides = some r2
      ∧ (r2.Status = rideNew2.Status ∨ RideEdge rideNew2.Status r2.Status)
      ∧ ((rideNew2.Status = RideComplete ∨ rideNew2.Status = RideCancelled) →
          r2.Status = rideNew2.Status) := by
  have hreach : Reachable sRide :=
    Relation.ReflTransGen.tail
      (Relation.ReflTransGen.single
        ⟨StoreOp.updateDriverLocation 1 "d1" locO, rfl, rfl⟩)
      ⟨StoreOp.createRide farDistKM geoNone 2 "p1" locO "", rfl, by decide⟩
  exact ride_state_machine sRide (Store.AcceptRide "ride_2" "d1" sRide).2
    (StoreOp.acceptRide "ride_2" "d1") rfl trivial hreach rfl
    "ride_2" rideNew2 (by decide)

/-- C4 counterexample: a concrete sequence of Store operations — heartbeat,
CreateRide, CancelRide, then the admin override UpdateRideStatus — moves
the cancelled (terminal) ride ride_2 back to assigned, which is not an edge
of the ride state machine; the claim quantifies over all Store operations
and UpdateRideStatus violates it. -/
theorem terminal_ride_mutated_by_admin_override :
    ((alookup "ride_2" (Store.CancelRide "ride_2" sRide).2.rides).map Ride.Status =
        some RideCancelled
      ∧ (alookup "ride_2"
          (Store.UpdateRideStatus "ride_2" RideAssigned
            (Store.CancelRide "ride_2" sRide).2).2.rides).map Ride.Status =
        some RideAssigned)
    ∧ ¬ RideEdge RideCancelled RideAssigned := by decide

/-- C7 witness: the watchdog firing on the concretely assigned ride r1 with
no other driver in the store reverts it to requested and releases d1. -/
theorem reassign_triggered_witness :
    (Store.ReassignIfUnaccepted farDistKM geoNone "r1" "d1" sAcc).1 =
      Except.ok ({ rideA1 with Status := RideRequested, DriverID := "" }, true)
    ∧ alookup "d1" (Store.ReassignIfUnaccepted farDistKM geoNone "r1" "d1" sAcc).2.drivers =
      some { drvAssigned1 with Status := "idle", Available := true, RideID := "" } := by
  have h := reassign_triggered farDistKM geoNone sAcc "r1" "d1" rideA1 drvAssigned1
    (by decide) (by decide) (by decide) (by decide) (by decide)
  exact ⟨(h.2.1 (by decide)).1, h.1⟩

end TurboDriver
